import Mathlib

/-!
Verification development for the SoloTranscribe batch transcription
orchestrator.  The definitions below are a shallow embedding of the Python
source under `src/solotranscribe/`:

* `models.py`           — `JobStatus`, `FailureReason`, `TranscriptionJob`,
                          `TranscriptionManifest`, `ProcessingOptions`
* `core/processor.py`   — `TranscriptionProcessor` (batch loop, per-job
                          pipeline, budget cutoff, retry)
* `core/manifest.py`    — `ManifestManager` (URL parsing, manifest
                          creation, save/load)
* `formatters/output_formatters.py` — SRT/VTT caption segment grouping

Modelling conventions:
* Python floats are modelled as `ℚ` (the claims under study concern
  comparisons and exact sums, not rounding).
* The three external adapters (downloader, converter, transcriber) and the
  per-format output formatters are modelled by an environment `JobEnv`
  giving, per job, the outcome each adapter call would produce.  The
  number of adapter calls actually made is counted explicitly, as are
  manifest persistence events ("saves"), so that temporal claims about
  "no further external calls" and "persisted after every job" are
  statable.
* Timestamps (`created_at`/`started_at`/`completed_at`) and filesystem
  paths are irrelevant to every claim treated here and are omitted from
  the record types.
* Python truthiness tests on numbers (`or` / `if x:` where `x` is a float
  or `None`) are modelled faithfully: `None` and `0` are falsy.
-/

namespace SoloTranscribe

/-- `JobStatus` from models.py. -/
inductive JobStatus where
  | pending
  | downloading
  | converting
  | transcribing
  | formatting
  | completed
  | failed
  | skipped
  deriving DecidableEq, Repr

/-- `FailureReason` from models.py. -/
inductive FailureReason where
  | invalid_url
  | access_denied
  | download_failed
  | convert_failed
  | transcription_failed
  | format_failed
  | budget_exceeded
  | unknown_error
  deriving DecidableEq, Repr

/-- `OutputFormats` from models.py. -/
inductive OutputFormat where
  | txt
  | json
  | srt
  | vtt
  deriving DecidableEq, Repr

/-- `VideoMetadata` from models.py, restricted to the field the
orchestrator reads (`duration`, optional seconds). -/
structure VideoMetadata where
  duration : Option ℚ
  deriving DecidableEq, Repr

/-- A word entry of the transcript data dict: AssemblyAI word objects with
optional `start`/`end` timestamps and a text.  `stop` stands for the
Python key `end` (a Lean keyword). -/
structure Word where
  start : Option ℚ
  stop : Option ℚ
  text : String
  deriving DecidableEq, Repr

/-- The transcript data returned by the transcription adapter, restricted
to the fields the core reads: the full text and the word-level
timestamps. -/
structure TranscriptData where
  text : String
  words : List Word
  deriving DecidableEq, Repr

/-- `TranscriptionJob` from models.py (timestamps and temp-file paths
omitted; they are irrelevant to the claims under study). -/
structure Job where
  id : String
  url : String
  status : JobStatus
  video_metadata : Option VideoMetadata
  transcript_data : Option TranscriptData
  error_message : Option String
  failure_reason : Option FailureReason
  retry_count : Nat
  estimated_cost : Option ℚ
  actual_cost : Option ℚ
  deriving DecidableEq, Repr

/-- `TranscriptionManifest` from models.py (timestamps omitted).  The
statistics fields are stored fields, exactly as in the Pydantic model:
they are only consistent with `jobs` after `update_stats`. -/
structure Manifest where
  id : String
  input_file : String
  output_dir : String
  output_formats : List OutputFormat
  jobs : List Job
  total_jobs : Nat
  completed_jobs : Nat
  failed_jobs : Nat
  total_estimated_cost : ℚ
  total_actual_cost : ℚ
  budget_cap : ℚ
  deriving DecidableEq, Repr

/-- The configuration values the orchestrator core reads from `config.py`
(`RETRY_LIMIT`, `CAP_BUDGET_USD`). -/
structure Config where
  retry_limit : Nat
  cap_budget_usd : ℚ
  deriving DecidableEq, Repr

/-- `ProcessingOptions` from models.py, restricted to the fields the
orchestrator reads.  `budget_cap` is `Optional[float] = None` in the
source — hence `Option ℚ` here. -/
structure Options where
  formats : List OutputFormat
  budget_cap : Option ℚ
  dry_run : Bool
  deriving Repr

/-- Python `x or d` on an optional float: `None` and `0.0` are falsy and
fall back to the default. -/
def pyOr (x : Option ℚ) (d : ℚ) : ℚ :=
  match x with
  | none => d
  | some v => if v = 0 then d else v

/-- Python truthiness of an optional float (`if x:`): `None` and `0` are
falsy. -/
def truthy : Option ℚ → Bool
  | none => false
  | some q => decide (q ≠ 0)

/-- `AssemblyAIAPI.estimate_transcription_cost`: `duration * 0.00037`. -/
def estimate_transcription_cost (duration_seconds : ℚ) : ℚ :=
  duration_seconds * (37 / 100000)

/-- `FreeConvertAPI.estimate_conversion_cost`: `0.01 + duration * 0.001`. -/
def estimate_conversion_cost (duration_seconds : ℚ) : ℚ :=
  1 / 100 + duration_seconds * (1 / 1000)

/-- `TranscriptionProcessor._estimate_job_cost`. -/
def estimate_job_cost (duration_seconds : ℚ) : ℚ :=
  estimate_transcription_cost duration_seconds +
    estimate_conversion_cost duration_seconds

/-- `TranscriptionProcessor._calculate_actual_cost`: identical to the
estimate in the source ("similar to estimate for now"). -/
def calculate_actual_cost (duration_seconds : ℚ) : ℚ :=
  estimate_job_cost duration_seconds

/-- `TranscriptionManifest.update_stats`: recompute all statistics fields
from `jobs`. -/
def Manifest.update_stats (m : Manifest) : Manifest :=
  { m with
    total_jobs := m.jobs.length
    completed_jobs := (m.jobs.filter (fun j => j.status = .completed)).length
    failed_jobs := (m.jobs.filter (fun j => j.status = .failed)).length
    total_estimated_cost := (m.jobs.map (fun j => j.estimated_cost.getD 0)).sum
    total_actual_cost := (m.jobs.map (fun j => j.actual_cost.getD 0)).sum }

/-- `TranscriptionManifest.get_retryable_jobs`: FAILED jobs whose
`retry_count` is strictly below the configured retry limit. -/
def Manifest.get_retryable_jobs (cfg : Config) (m : Manifest) : List Job :=
  m.jobs.filter (fun j =>
    j.status = .failed ∧ j.retry_count < cfg.retry_limit)

/-- Positions of the retryable jobs in the manifest's job list.  The
Python loop iterates over the job objects returned by
`get_retryable_jobs`, which alias entries of `manifest.jobs`; in the
embedding the aliasing is expressed by processing those positions. -/
def retryable_positions (cfg : Config) (m : Manifest) : List Nat :=
  (List.range m.jobs.length).filter (fun i =>
    match m.jobs[i]? with
    | some j => j.status = .failed ∧ j.retry_count < cfg.retry_limit
    | none => False)

/-- `ManifestManager.create_manifest`: fresh manifest with no jobs; the
manifest's own `budget_cap` field defaults through Python `or` to the
configured cap when the argument is `None` (or `0.0`). -/
def create_manifest (cfg : Config) (input_file output_dir : String)
    (output_formats : List OutputFormat) (budget_cap : Option ℚ) : Manifest :=
  { id := "batch"
    input_file := input_file
    output_dir := output_dir
    output_formats := output_formats
    jobs := []
    total_jobs := 0
    completed_jobs := 0
    failed_jobs := 0
    total_estimated_cost := 0
    total_actual_cost := 0
    budget_cap := pyOr budget_cap cfg.cap_budget_usd }

/-- Helper for `populate_jobs`: build the job for the `i`-th URL
(1-based sequence number in the id). -/
def mkJob (manifest_id : String) (i : Nat) (url : String) : Job :=
  { id := manifest_id ++ "_job_" ++ toString i
    url := url
    status := .pending
    video_metadata := none
    transcript_data := none
    error_message := none
    failure_reason := none
    retry_count := 0
    estimated_cost := none
    actual_cost := none }

/-- Recursion for `populate_jobs` over the URL list with a running
1-based counter. -/
def populateFrom (manifest_id : String) : Nat → List String → List Job
  | _, [] => []
  | i, url :: rest => mkJob manifest_id i url :: populateFrom manifest_id (i + 1) rest

/-- `ManifestManager.populate_jobs`: append one PENDING job per URL, then
`update_stats`. -/
def populate_jobs (m : Manifest) (urls : List String) : Manifest :=
  Manifest.update_stats { m with jobs := m.jobs ++ populateFrom m.id 1 urls }

/-! ### Per-job pipeline (`TranscriptionProcessor._process_single_job`) -/

/-- Outcomes the three external adapters and the formatters would produce
for one job.  A pure stand-in for the stateless request/response adapters:
`metadata` is what `downloader.get_video_metadata` returns (`none` =
metadata fetch failed), `download_ok`/`convert_ok`/`transcribe_ok` whether
each adapter call succeeds, with the classified reason and error text for
the download failure case, and `format_ok f` whether the formatter for
format `f` succeeds on this job. -/
structure JobEnv where
  metadata : Option VideoMetadata
  download_ok : Bool
  download_reason : FailureReason
  download_error : String
  convert_ok : Bool
  convert_error : String
  transcribe_ok : Bool
  transcribe_result : TranscriptData
  transcribe_error : String
  format_ok : OutputFormat → Bool

/-- `TranscriptionProcessor._handle_job_failure`: set FAILED with the
classified reason and message. -/
def handle_job_failure (job : Job) (reason : FailureReason) (msg : String) : Job :=
  { job with
    status := .failed
    failure_reason := some reason
    error_message := some msg }

/-- `TranscriptionProcessor._format_job_outputs`: the boolean `success`
starts true and is cleared whenever a requested formatter fails (the
formatter dictionary covers every member of `OutputFormats`, so the
missing-formatter branch is unreachable), so the result is true iff every
requested formatter succeeds. -/
def format_job_outputs (env : JobEnv) (opts : Options) : Bool :=
  opts.formats.all env.format_ok

/-- `TranscriptionProcessor._process_single_job`: drive one job through
metadata fetch, download, convert, transcribe and format, returning the
final job together with the number of download/convert/transcribe adapter
calls made.  Mirrors the control flow of the source line by line, with
Python's falsy test on `metadata.duration` (`duration or 120`,
`if ... .duration:`) modelled by `truthy`. -/
def process_single_job (env : JobEnv) (opts : Options) (job : Job) : Job × Nat :=
  -- Step 1: get video metadata (best effort)
  let job := { job with status := JobStatus.downloading }
  let job :=
    match env.metadata with
    | some md =>
        { job with
          video_metadata := some md
          estimated_cost :=
            some (estimate_job_cost (if truthy md.duration then md.duration.getD 0 else 120)) }
    | none => job
  -- Step 2: download video (adapter call 1)
  if ¬ env.download_ok then
    (handle_job_failure job env.download_reason env.download_error, 1)
  else
    -- Step 3: convert to MP3 (adapter call 2)
    let job := { job with status := JobStatus.converting }
    if ¬ env.convert_ok then
      (handle_job_failure job .convert_failed env.convert_error, 2)
    else
      -- Step 4: transcribe audio (adapter call 3)
      let job := { job with status := JobStatus.transcribing }
      if ¬ env.transcribe_ok then
        (handle_job_failure job .transcription_failed env.transcribe_error, 3)
      else
        let job := { job with transcript_data := some env.transcribe_result }
        -- Calculate actual cost (falls back to the estimate when the
        -- duration is unknown or 0)
        let job :=
          if truthy (job.video_metadata.bind VideoMetadata.duration) then
            { job with
              actual_cost :=
                some (calculate_actual_cost
                  ((job.video_metadata.bind VideoMetadata.duration).getD 0)) }
          else
            { job with actual_cost := job.estimated_cost }
        -- Step 5: format outputs
        let job := { job with status := JobStatus.formatting }
        if ¬ format_job_outputs env opts then
          (handle_job_failure job .format_failed "Failed to format outputs", 3)
        else
          ({ job with status := JobStatus.completed }, 3)

/-! ### Batch orchestration (`TranscriptionProcessor.process_batch`) -/

/-- Running state of the batch loop: the manifest, the number of adapter
calls made so far, the number of times the manifest has been persisted
(`save_manifest`), whether the loop has been broken out of, and a pending
uncaught exception text (`process_batch` has no handler, so an exception
aborts the run). -/
structure BatchState where
  m : Manifest
  calls : Nat
  saves : Nat
  stopped : Bool
  err : Option String
  deriving Repr

/-- The body of `_mark_remaining_jobs_skipped` applied to one job:
PENDING becomes SKIPPED with reason budget_exceeded, anything else is
left unchanged. -/
def skipPending (j : Job) : Job :=
  if j.status = .pending then
    { j with
      status := .skipped
      failure_reason := some FailureReason.budget_exceeded
      error_message := some "Skipped due to budget cap" }
  else j

/-- `manifest.jobs[current_index:]` traversal of
`_mark_remaining_jobs_skipped`: leave the first `i` jobs alone and apply
`skipPending` from position `i` on. -/
def markFrom : Nat → List Job → List Job
  | _, [] => []
  | 0, j :: js => skipPending j :: markFrom 0 js
  | n + 1, j :: js => j :: markFrom n js

/-- `TranscriptionProcessor._mark_remaining_jobs_skipped`, with the
position `i` of the current job playing the role of
`manifest.jobs.index(current_job)` (job ids are unique, so `index`
resolves to the current position). -/
def mark_remaining_jobs_skipped (m : Manifest) (i : Nat) : Manifest :=
  { m with jobs := markFrom i m.jobs }

/-- The Python error text produced by comparing a float with `None`. -/
def capTypeError : String :=
  "TypeError: not supported between instances of float and NoneType"

/-- The budget comparison `manifest.total_actual_cost >= options.budget_cap`.
When `budget_cap` is `None` the Python comparison raises `TypeError`
(float and NoneType are not orderable); this is modelled as an error
result. -/
def capCheck (total : ℚ) (cap : Option ℚ) : Except String Bool :=
  match cap with
  | none => .error capTypeError
  | some c => .ok (decide (c ≤ total))

/-- Shared tail of the per-job iteration in `process_batch` and
`retry_failed_jobs`: run the pipeline on job `j` (placed at position `i`),
store the result back, and — only when the job completed — recompute the
manifest statistics and persist the manifest (the `update_stats` /
`save_manifest` pair at the end of the success path of
`_process_single_job`; every failure path returns before it). -/
def runJobCore (env : JobEnv) (opts : Options) (s : BatchState) (i : Nat)
    (j : Job) : BatchState :=
  let r := process_single_job env opts j
  let m' := { s.m with jobs := s.m.jobs.set i r.1 }
  if r.1.status = .completed then
    { s with m := m'.update_stats, calls := s.calls + r.2, saves := s.saves + 1 }
  else
    { s with m := m', calls := s.calls + r.2 }

/-- One iteration of the `for job in manifest.jobs:` loop of
`process_batch`: nothing happens after a `break` or an uncaught
exception; otherwise the accumulated `total_actual_cost` is compared with
the budget cap, and either the current and remaining PENDING jobs are
skipped and the loop stops, or the job at position `i` is processed. -/
def batchStep (env : Nat → JobEnv) (opts : Options) (s : BatchState) (i : Nat) :
    BatchState :=
  if s.err.isSome ∨ s.stopped then s
  else
    match capCheck s.m.total_actual_cost opts.budget_cap with
    | .error e => { s with err := some e }
    | .ok true => { s with m := mark_remaining_jobs_skipped s.m i, stopped := true }
    | .ok false =>
        match s.m.jobs[i]? with
        | none => s
        | some j => runJobCore (env i) opts s i j

/-- Folding the batch step over a list of job positions. -/
def runJobs (env : Nat → JobEnv) (opts : Options) (s : BatchState)
    (idxs : List Nat) : BatchState :=
  idxs.foldl (batchStep env opts) s

/-- `_perform_dry_run` job update: store metadata when available and an
estimated cost from its duration (default 120 s), leaving status PENDING. -/
def dryRunJob (e : JobEnv) (j : Job) : Job :=
  match e.metadata with
  | some md =>
      { j with
        video_metadata := some md
        estimated_cost :=
          some (estimate_job_cost (if truthy md.duration then md.duration.getD 0 else 120))
        status := .pending }
  | none => { j with estimated_cost := some (estimate_job_cost 120) }

/-- The job traversal of `_perform_dry_run`. -/
def dryRunJobs (env : Nat → JobEnv) : Nat → List Job → List Job
  | _, [] => []
  | i, j :: js => dryRunJob (env i) j :: dryRunJobs env (i + 1) js

/-- `TranscriptionProcessor._perform_dry_run`: refresh estimates for every
job, then `update_stats` (no persistence, no pipeline calls). -/
def perform_dry_run (env : Nat → JobEnv) (m : Manifest) : Manifest :=
  Manifest.update_stats { m with jobs := dryRunJobs env 0 m.jobs }

/-- `TranscriptionProcessor.process_batch`, starting from the populated
manifest (URL loading and directory creation are I/O preliminaries; the
empty-URL guard means the manifest entering the loop is the populated
one).  The initial `save_manifest` is the starting `saves := 1`; on the
non-dry-run path the loop visits every job position in order, and unless
an exception aborted the run the final `update_stats` / `save_manifest`
pair runs. -/
def process_batch (env : Nat → JobEnv) (opts : Options) (m0 : Manifest) :
    BatchState :=
  if opts.dry_run then
    { m := perform_dry_run env m0, calls := 0, saves := 1, stopped := false, err := none }
  else
    let s := runJobs env opts ⟨m0, 0, 1, false, none⟩ (List.range m0.jobs.length)
    if s.err.isSome then s
    else { s with m := s.m.update_stats, saves := s.saves + 1 }

/-! ### Retry (`TranscriptionProcessor.retry_failed_jobs`) -/

/-- The reset applied to a retryable job before its pipeline is re-run:
`retry_count += 1`, status PENDING, error text and failure reason
cleared. -/
def resetForRetry (j : Job) : Job :=
  { j with
    retry_count := j.retry_count + 1
    status := JobStatus.pending
    error_message := none
    failure_reason := none }

/-- One iteration of the retry loop: after a `break` nothing happens;
otherwise if the accumulated `total_actual_cost` has reached the budget
the loop breaks (without touching the job), else the job at position `i`
is reset and its pipeline re-run. -/
def retryStep (env : Nat → JobEnv) (opts : Options) (budget : ℚ)
    (s : BatchState) (i : Nat) : BatchState :=
  if s.stopped then s
  else if budget ≤ s.m.total_actual_cost then { s with stopped := true }
  else
    match s.m.jobs[i]? with
    | none => s
    | some j => runJobCore (env i) opts s i (resetForRetry j)

/-- `TranscriptionProcessor.retry_failed_jobs`: select the retryable jobs;
if there are none, return the manifest untouched (no save); otherwise
default the budget through Python `or`, loop over the selected positions,
and finish with `update_stats` / `save_manifest`. -/
def retry_failed_jobs (cfg : Config) (env : Nat → JobEnv) (m : Manifest)
    (budget_cap : Option ℚ) : BatchState :=
  let idxs := retryable_positions cfg m
  if idxs = [] then ⟨m, 0, 0, false, none⟩
  else
    let budget := pyOr budget_cap cfg.cap_budget_usd
    let opts : Options :=
      { formats := m.output_formats, budget_cap := some budget, dry_run := false }
    let s := idxs.foldl (retryStep env opts budget) ⟨m, 0, 0, false, none⟩
    { s with m := s.m.update_stats, saves := s.saves + 1 }

/-! ### Caption segment grouping
(`SRTFormatter._group_words_into_segments`,
`VTTFormatter._group_words_into_segments`) -/

/-- Python `' '.join`. -/
def joinSpace : List String → String
  | [] => ""
  | [s] => s
  | s :: rest => s ++ " " ++ joinSpace rest

/-- A caption segment as emitted by `_group_words_into_segments`: the
Python dict has keys `start`, `end` (`stop` here) and `text`; the `words`
field is instrumentation recording which input words the segment was
built from (in the source, `text` is exactly the space-join of their
texts, which `finishSeg` reproduces). -/
structure Segment where
  start : ℚ
  stop : ℚ
  text : String
  words : List Word
  deriving DecidableEq, Repr

/-- `end: current_segment[-1]['end']`: the last word's end timestamp
(only evaluated on non-empty segments, where the stored end is a truthy
value). -/
def lastStop (cur : List Word) : ℚ :=
  match cur.getLast? with
  | some w => w.stop.getD 0
  | none => 0

/-- Emit the current segment: `start` is the running `current_start`,
`end` the last word's end, `text` the space-join of the words' texts. -/
def finishSeg (cs : ℚ) (cur : List Word) : Segment :=
  ⟨cs, lastStop cur, joinSpace (cur.map Word.text), cur⟩

/-- Whether to break a new segment before adding the next word:
`duration > max_duration` and (for SRT only) the word-count test
`len(current_segment) >= max_words`. -/
def breakSegment (maxDur : ℚ) (maxWords : Option Nat) (dur : ℚ)
    (curLen : Nat) : Bool :=
  decide (maxDur < dur) ||
    match maxWords with
    | some mw => decide (mw ≤ curLen)
    | none => false

/-- The word loop of `_group_words_into_segments`, with the running
`current_segment` (`cur`, in order) and `current_start` (`cs`).  A word
whose `start` or `end` is falsy (missing or 0) is skipped; the first kept
word opens a segment; afterwards a word either closes the current segment
(emitting it) and opens a new one, or is appended.  The trailing
non-empty segment is emitted at the end. -/
def groupLoop (maxDur : ℚ) (maxWords : Option Nat) :
    List Word → List Word → ℚ → List Segment
  | [], cur, cs => if cur.isEmpty then [] else [finishSeg cs cur]
  | w :: ws, cur, cs =>
    if ¬ (truthy w.start ∧ truthy w.stop) then
      groupLoop maxDur maxWords ws cur cs
    else if cur.isEmpty then
      groupLoop maxDur maxWords ws [w] (w.start.getD 0)
    else if breakSegment maxDur maxWords (w.stop.getD 0 - cs) cur.length then
      finishSeg cs cur :: groupLoop maxDur maxWords ws [w] (w.start.getD 0)
    else
      groupLoop maxDur maxWords ws (cur ++ [w]) cs

/-- `SRTFormatter._group_words_into_segments` with its default arguments
`max_duration = 8.0`, `max_words = 10`. -/
def srt_group_words_into_segments (words : List Word) : List Segment :=
  groupLoop 8 (some 10) words [] 0

/-- `VTTFormatter._group_words_into_segments` with its default argument
`max_duration = 8.0` (no word-count bound). -/
def vtt_group_words_into_segments (words : List Word) : List Segment :=
  groupLoop 8 none words [] 0

/-! ### Input URL parsing (`ManifestManager._load_urls_from_txt`,
`_load_urls_from_csv`) -/

/-- The line loop of `_load_urls_from_txt` with a running 1-based line
number: strip each line; skip it when blank or starting with `#`; accept
it when it starts with `http`; otherwise record a warning for that line
number.  Returns the accepted URLs and the warned line numbers; no
failure is possible. -/
def txtLines : Nat → List String → List String × List Nat
  | _, [] => ([], [])
  | n, raw :: rest =>
    let line := raw.trim
    let r := txtLines (n + 1) rest
    if line ≠ "" ∧ ¬ line.startsWith "#" then
      if line.startsWith "http" then (line :: r.1, r.2)
      else (r.1, n :: r.2)
    else r

/-- `ManifestManager._load_urls_from_txt` on the file's lines. -/
def load_urls_from_txt (lines : List String) : List String × List Nat :=
  txtLines 1 lines

/-- A parsed CSV input as `csv.DictReader` sees it: the header field
names and, per data row, the content of the `url` cell
(`row.get('url', '')`). -/
structure CsvInput where
  fieldnames : List String
  url_cells : List String
  deriving DecidableEq, Repr

/-- The row loop of `_load_urls_from_csv`: strip the `url` cell; accept
it when non-empty and starting with `http`; warn (by 2-based row number)
when non-empty otherwise; skip empty cells. -/
def csvRows : Nat → List String → List String × List Nat
  | _, [] => ([], [])
  | n, cell :: rest =>
    let url := cell.trim
    let r := csvRows (n + 1) rest
    if url ≠ "" ∧ url.startsWith "http" then (url :: r.1, r.2)
    else if url ≠ "" then (r.1, n :: r.2)
    else r

/-- `ManifestManager._load_urls_from_csv`: raise (`ValueError`) iff the
required `url` column is absent from the header; otherwise collect the
valid URLs, warning on merely invalid cells. -/
def load_urls_from_csv (input : CsvInput) : Except String (List String × List Nat) :=
  if "url" ∈ input.fieldnames then .ok (csvRows 2 input.url_cells)
  else .error "CSV file must contain url column"

/-! ### Manifest serialization (`ManifestManager.save_manifest`,
`load_manifest`)

`save_manifest` dumps `manifest.dict()` to JSON; the `str`-valued enums
serialize as their `.value` strings, numbers and plain strings round-trip
through JSON unchanged (modelled as identity), and `load_manifest`
rebuilds the Pydantic model — which validates the enum strings — and then
calls `update_stats`, so the serialized aggregate fields are never
trusted. -/

/-- `JobStatus.value`. -/
def statusToStr : JobStatus → String
  | .pending => "pending"
  | .downloading => "downloading"
  | .converting => "converting"
  | .transcribing => "transcribing"
  | .formatting => "formatting"
  | .completed => "completed"
  | .failed => "failed"
  | .skipped => "skipped"

/-- Pydantic validation of a `JobStatus` string. -/
def statusOfStr : String → Option JobStatus
  | "pending" => some .pending
  | "downloading" => some .downloading
  | "converting" => some .converting
  | "transcribing" => some .transcribing
  | "formatting" => some .formatting
  | "completed" => some .completed
  | "failed" => some .failed
  | "skipped" => some .skipped
  | _ => none

/-- `FailureReason.value`. -/
def reasonToStr : FailureReason → String
  | .invalid_url => "invalid_url"
  | .access_denied => "access_denied"
  | .download_failed => "download_failed"
  | .convert_failed => "convert_failed"
  | .transcription_failed => "transcription_failed"
  | .format_failed => "format_failed"
  | .budget_exceeded => "budget_exceeded"
  | .unknown_error => "unknown_error"

/-- Pydantic validation of a `FailureReason` string. -/
def reasonOfStr : String → Option FailureReason
  | "invalid_url" => some .invalid_url
  | "access_denied" => some .access_denied
  | "download_failed" => some .download_failed
  | "convert_failed" => some .convert_failed
  | "transcription_failed" => some .transcription_failed
  | "format_failed" => some .format_failed
  | "budget_exceeded" => some .budget_exceeded
  | "unknown_error" => some .unknown_error
  | _ => none

/-- `OutputFormats.value`. -/
def formatToStr : OutputFormat → String
  | .txt => "txt"
  | .json => "json"
  | .srt => "srt"
  | .vtt => "vtt"

/-- Pydantic validation of an `OutputFormats` string. -/
def formatOfStr : String → Option OutputFormat
  | "txt" => some .txt
  | "json" => some .json
  | "srt" => some .srt
  | "vtt" => some .vtt
  | _ => none

/-- A job record as it stands in the dumped JSON: enum fields as their
value strings, everything else as JSON numbers / strings / nulls. -/
structure SavedJob where
  id : String
  url : String
  status : String
  video_metadata : Option VideoMetadata
  transcript_data : Option TranscriptData
  error_message : Option String
  failure_reason : Option String
  retry_count : Nat
  estimated_cost : Option ℚ
  actual_cost : Option ℚ
  deriving DecidableEq, Repr

/-- A manifest record as it stands in the dumped JSON, including the
stored aggregate fields exactly as they were at dump time. -/
structure SavedManifest where
  id : String
  input_file : String
  output_dir : String
  output_formats : List String
  jobs : List SavedJob
  total_jobs : Nat
  completed_jobs : Nat
  failed_jobs : Nat
  total_estimated_cost : ℚ
  total_actual_cost : ℚ
  budget_cap : ℚ
  deriving DecidableEq, Repr

/-- Serialization of one job (the per-job part of `manifest.dict()`). -/
def saveJob (j : Job) : SavedJob :=
  { id := j.id
    url := j.url
    status := statusToStr j.status
    video_metadata := j.video_metadata
    transcript_data := j.transcript_data
    error_message := j.error_message
    failure_reason := j.failure_reason.map reasonToStr
    retry_count := j.retry_count
    estimated_cost := j.estimated_cost
    actual_cost := j.actual_cost }

/-- Pydantic reconstruction of one job; fails on an invalid enum string. -/
def loadJob (sj : SavedJob) : Option Job := do
  let st ← statusOfStr sj.status
  let fr ←
    match sj.failure_reason with
    | none => some none
    | some s => (reasonOfStr s).map some
  some
    { id := sj.id
      url := sj.url
      status := st
      video_metadata := sj.video_metadata
      transcript_data := sj.transcript_data
      error_message := sj.error_message
      failure_reason := fr
      retry_count := sj.retry_count
      estimated_cost := sj.estimated_cost
      actual_cost := sj.actual_cost }

/-- Option-valued traversal used by reconstruction. -/
def mapOpt (f : α → Option β) : List α → Option (List β)
  | [] => some []
  | a :: as =>
    match f a, mapOpt f as with
    | some b, some bs => some (b :: bs)
    | _, _ => none

/-- `ManifestManager.save_manifest`: dump all manifest fields, including
the stored aggregates as they are. -/
def save_manifest (m : Manifest) : SavedManifest :=
  { id := m.id
    input_file := m.input_file
    output_dir := m.output_dir
    output_formats := m.output_formats.map formatToStr
    jobs := m.jobs.map saveJob
    total_jobs := m.total_jobs
    completed_jobs := m.completed_jobs
    failed_jobs := m.failed_jobs
    total_estimated_cost := m.total_estimated_cost
    total_actual_cost := m.total_actual_cost
    budget_cap := m.budget_cap }

/-- `ManifestManager.load_manifest`: rebuild the Pydantic model from the
dumped record (validation failure raises, modelled as `none`), then
recompute the aggregates with `update_stats` — the serialized aggregate
fields are parsed but immediately overwritten. -/
def load_manifest (sm : SavedManifest) : Option Manifest := do
  let fmts ← mapOpt formatOfStr sm.output_formats
  let jobs ← mapOpt loadJob sm.jobs
  some <| Manifest.update_stats
    { id := sm.id
      input_file := sm.input_file
      output_dir := sm.output_dir
      output_formats := fmts
      jobs := jobs
      total_jobs := sm.total_jobs
      completed_jobs := sm.completed_jobs
      failed_jobs := sm.failed_jobs
      total_estimated_cost := sm.total_estimated_cost
      total_actual_cost := sm.total_actual_cost
      budget_cap := sm.budget_cap }

/-! ### Concrete fixtures used by witnesses and counterexamples -/

/-- Adapter environment in which every call succeeds: metadata with a
100-second duration, download/convert/transcribe succeed, every formatter
succeeds. -/
def envAllOk : JobEnv :=
  { metadata := some ⟨some 100⟩
    download_ok := true
    download_reason := .download_failed
    download_error := ""
    convert_ok := true
    convert_error := ""
    transcribe_ok := true
    transcribe_result := ⟨"transcript", []⟩
    transcribe_error := ""
    format_ok := fun _ => true }

/-- Like `envAllOk`, but the SRT formatter fails while the others
succeed. -/
def envSrtFails : JobEnv :=
  { envAllOk with format_ok := fun f => decide (f ≠ OutputFormat.srt) }

/-- Like `envAllOk`, but the metadata fetch returns nothing. -/
def envNoMetadata : JobEnv :=
  { envAllOk with metadata := none }

/-- Like `envAllOk`, but the video download fails. -/
def envDownloadFails : JobEnv :=
  { envAllOk with download_ok := false, download_error := "download error" }

/-- A fresh PENDING job as `populate_jobs` creates it. -/
def jobFresh : Job := mkJob "batch" 1 "http://example.com/v"

/-- A COMPLETED job that has consumed 5 dollars. -/
def jobDone : Job :=
  { jobFresh with
    id := "batch_job_001"
    status := .completed
    estimated_cost := some 5
    actual_cost := some 5 }

/-- A FAILED job with one of the classified reasons and no retry yet. -/
def jobFailed : Job :=
  { jobFresh with
    id := "batch_job_002"
    status := .failed
    failure_reason := some .download_failed
    error_message := some "download error"
    retry_count := 0 }

/-- A manifest whose stored aggregates reflect `update_stats`: one
completed job that spent the whole 5-dollar budget plus one failed
job. -/
def mAfterRun : Manifest :=
  { id := "batch"
    input_file := "urls.txt"
    output_dir := "out"
    output_formats := [.txt]
    jobs := [jobDone, jobFailed]
    total_jobs := 2
    completed_jobs := 1
    failed_jobs := 1
    total_estimated_cost := 5
    total_actual_cost := 5
    budget_cap := 5 }

/-- A manifest entering the batch loop with its accumulated actual cost
already over the cap: one failed and one pending job. -/
def mOverCap : Manifest :=
  { mAfterRun with
    jobs := [jobFailed, jobFresh]
    completed_jobs := 0
    total_estimated_cost := 0
    total_actual_cost := 6 }

/-- A manifest entering the batch loop freshly populated: two pending
jobs, aggregates as `update_stats` leaves them. -/
def mTwoPending : Manifest :=
  { mAfterRun with
    jobs := [jobFresh, mkJob "batch" 2 "http://example.com/w"]
    completed_jobs := 0
    failed_jobs := 0
    total_estimated_cost := 0
    total_actual_cost := 0 }

/-- Default options: text output, 5-dollar cap, not a dry run. -/
def optsTxt : Options := { formats := [.txt], budget_cap := some 5, dry_run := false }

/-- Options requesting two output formats. -/
def optsTxtSrt : Options := { optsTxt with formats := [.txt, .srt] }

/-- Configuration fixture: retry limit 3, 20-dollar default cap. -/
def cfgDefault : Config := { retry_limit := 3, cap_budget_usd := 20 }

/-- A word with explicit timestamps whose start is 0 — falsy in Python. -/
def wordZeroStart : Word := ⟨some 0, some 1, "a"⟩

/-- A word with explicit timestamps spanning 19 seconds on its own. -/
def wordLong : Word := ⟨some 1, some 20, "b"⟩

/-- A two-word sequence with explicit non-zero timestamps. -/
def wsPair : List Word := [⟨some 1, some 2, "hello"⟩, ⟨some 2, some 3, "world"⟩]

/-- The condition under which `_load_urls_from_txt` accepts a (stripped)
line into the URL list. -/
def acceptedLine (l : String) : Prop :=
  l ≠ "" ∧ ¬ l.startsWith "#" ∧ l.startsWith "http"

instance : DecidablePred acceptedLine := fun _ => by
  unfold acceptedLine; infer_instance

/-- The condition under which `_load_urls_from_txt` logs a warning for a
(stripped) line: non-empty, not a comment, not URL-shaped. -/
def warnedLine (l : String) : Prop :=
  l ≠ "" ∧ ¬ l.startsWith "#" ∧ ¬ l.startsWith "http"

instance : DecidablePred warnedLine := fun _ => by
  unfold warnedLine; infer_instance

/-- The invariant of claim C2 as amended: a job carries a failure reason
exactly when it is FAILED or SKIPPED. -/
def reasonInvariant (j : Job) : Prop :=
  j.failure_reason ≠ none ↔ (j.status = .failed ∨ j.status = .skipped)

instance : DecidablePred reasonInvariant := fun _ => by
  unfold reasonInvariant; infer_instance

/-! ## Theorems -/

theorem txtLines_fst (n : Nat) (lines : List String) :
    (txtLines n lines).1 =
      (lines.map String.trim).filter (fun l => decide (acceptedLine l)) := by
  induction lines generalizing n with
  | nil => rfl
  | cons raw rest ih =>
    simp only [txtLines, List.map_cons, List.filter_cons]
    by_cases h1 : raw.trim ≠ "" ∧ ¬ raw.trim.startsWith "#"
    · by_cases h2 : raw.trim.startsWith "http"
      · have ha : acceptedLine raw.trim := ⟨h1.1, h1.2, h2⟩
        simp [h1, h2, ha, ih]
      · have ha : ¬ acceptedLine raw.trim := fun h => h2 h.2.2
        simp [h1, h2, ha, ih]
    · have ha : ¬ acceptedLine raw.trim := fun h => h1 ⟨h.1, h.2.1⟩
      rw [if_neg h1]
      simp [ha, ih]

theorem txtLines_snd_length (n : Nat) (lines : List String) :
    (txtLines n lines).2.length =
      ((lines.map String.trim).filter (fun l => decide (warnedLine l))).length := by
  induction lines generalizing n with
  | nil => rfl
  | cons raw rest ih =>
    simp only [txtLines, List.map_cons, List.filter_cons]
    by_cases h1 : raw.trim ≠ "" ∧ ¬ raw.trim.startsWith "#"
    · by_cases h2 : raw.trim.startsWith "http"
      · have hw : ¬ warnedLine raw.trim := fun h => h.2.2 h2
        simp [h1, h2, hw, ih]
      · have hw : warnedLine raw.trim := ⟨h1.1, h1.2, h2⟩
        simp [h1, h2, hw, ih]
    · have hw : ¬ warnedLine raw.trim := fun h => h1 ⟨h.1, h.2.1⟩
      rw [if_neg h1]
      simp [hw, ih]

/-- **C7.** Plain-line parsing strips each line, skips blank lines and
`#`-comments, accepts a line into the URL list exactly when it starts
with `http`, and logs one warning per other non-empty line; the text
loader is a total function (it can raise no failure), while the tabular
loader raises exactly when the required `url` column is missing from the
header — a merely partially invalid file never produces a failure. -/
theorem url_parsing_policy :
    (∀ lines : List String,
        (load_urls_from_txt lines).1 =
          (lines.map String.trim).filter (fun l => decide (acceptedLine l))) ∧
    (∀ lines : List String,
        (load_urls_from_txt lines).2.length =
          ((lines.map String.trim).filter (fun l => decide (warnedLine l))).length) ∧
    (∀ input : CsvInput,
        (∃ r, load_urls_from_csv input = .ok r) ↔ "url" ∈ input.fieldnames) := by
  refine ⟨fun lines => txtLines_fst 1 lines, fun lines => txtLines_snd_length 1 lines, ?_⟩
  intro input
  unfold load_urls_from_csv
  by_cases h : "url" ∈ input.fieldnames
  · simp [h]
  · simp [h]

theorem statusOfStr_statusToStr (s : JobStatus) : statusOfStr (statusToStr s) = some s := by
  cases s <;> rfl

theorem reasonOfStr_reasonToStr (r : FailureReason) : reasonOfStr (reasonToStr r) = some r := by
  cases r <;> rfl

theorem formatOfStr_formatToStr (f : OutputFormat) : formatOfStr (formatToStr f) = some f := by
  cases f <;> rfl

theorem loadJob_saveJob (j : Job) : loadJob (saveJob j) = some j := by
  obtain ⟨id, url, st, vm, td, em, fr, rc, ec, ac⟩ := j
  unfold loadJob saveJob
  rcases fr with _ | r
  · simp [statusOfStr_statusToStr]
  · simp [statusOfStr_statusToStr, reasonOfStr_reasonToStr]

theorem mapOpt_map {α β : Type} (f : β → Option α) (g : α → β)
    (h : ∀ a, f (g a) = some a) (l : List α) :
    mapOpt f (l.map g) = some l := by
  induction l with
  | nil => rfl
  | cons a as ih => simp [mapOpt, h a, ih]

/-- **C9.** Saving a manifest to the machine-readable form and reloading
it succeeds and yields exactly the saved manifest with its aggregates
recomputed by `update_stats`: the job list (hence its length, order, and
every job's status, estimated and actual cost) is reproduced unchanged,
while the aggregate fields are rederived from the jobs rather than
trusted from the serialized copy. -/
theorem manifest_roundtrip (m : Manifest) :
    load_manifest (save_manifest m) = some m.update_stats ∧
    m.update_stats.jobs = m.jobs ∧
    m.update_stats.total_actual_cost =
      (m.jobs.map (fun j => j.actual_cost.getD 0)).sum ∧
    m.update_stats.total_estimated_cost =
      (m.jobs.map (fun j => j.estimated_cost.getD 0)).sum ∧
    m.update_stats.budget_cap = m.budget_cap := by
  refine ⟨?_, rfl, rfl, rfl, rfl⟩
  unfold load_manifest save_manifest
  simp [mapOpt_map formatOfStr formatToStr formatOfStr_formatToStr,
    mapOpt_map loadJob saveJob loadJob_saveJob, Option.bind_eq_bind]

theorem batchStep_err {env : Nat → JobEnv} {opts : Options} {s : BatchState}
    (h : s.err.isSome) (i : Nat) : batchStep env opts s i = s := by
  unfold batchStep
  simp [h]

theorem runJobs_err {env : Nat → JobEnv} {opts : Options} {s : BatchState}
    (h : s.err.isSome) (idxs : List Nat) : runJobs env opts s idxs = s := by
  induction idxs with
  | nil => rfl
  | cons i rest ih =>
      unfold runJobs at ih ⊢
      rw [List.foldl_cons, batchStep_err h, ih]

/-- **C10.** `process_batch` is total only when `options.budget_cap` is
set: on a non-dry-run batch over a non-empty job list with the
`ProcessingOptions` default `budget_cap = None`, the very first per-job
budget comparison `total_actual_cost >= options.budget_cap` raises a
`TypeError`, so the run aborts with that error before any adapter call
and without persisting anything further — it does not fall back to the
configured default cap, even though `create_manifest` defaulted the
manifest's own `budget_cap` field (Python `or` on `None`) to
`config.cap_budget_usd`. -/
theorem budget_cap_none_aborts (cfg : Config) (env : Nat → JobEnv)
    (opts : Options) (m : Manifest)
    (hdry : opts.dry_run = false) (hcap : opts.budget_cap = none)
    (hjobs : m.jobs ≠ []) :
    (process_batch env opts m).err =
      some capTypeError ∧
    (process_batch env opts m).calls = 0 ∧
    (process_batch env opts m).m = m ∧
    (process_batch env opts m).saves = 1 ∧
    ∀ input output : String, ∀ fmts : List OutputFormat,
      (create_manifest cfg input output fmts none).budget_cap = cfg.cap_budget_usd := by
  obtain ⟨n, hn⟩ : ∃ n, m.jobs.length = n + 1 := by
    cases hl : m.jobs with
    | nil => exact absurd hl hjobs
    | cons a as => exact ⟨as.length, by simp [hl]⟩
  have hstep :
      batchStep env opts ⟨m, 0, 1, false, none⟩ 0 =
        ⟨m, 0, 1, false,
          some capTypeError⟩ := by
    unfold batchStep
    simp [hcap, capCheck]
  have hrun :
      runJobs env opts ⟨m, 0, 1, false, none⟩ (List.range m.jobs.length) =
        ⟨m, 0, 1, false,
          some capTypeError⟩ := by
    rw [hn, List.range_succ_eq_map, runJobs, List.foldl_cons, hstep]
    exact runJobs_err (by rfl) _
  unfold process_batch
  rw [hdry]
  simp only [Bool.false_eq_true, if_false, hrun]
  refine ⟨rfl, rfl, rfl, rfl, fun input output fmts => rfl⟩

/-- Witness for `budget_cap_none_aborts` at a concrete one-job manifest
with the default (`None`) options budget cap. -/
theorem budget_cap_none_aborts_witness :
    (process_batch (fun _ => envAllOk)
        { formats := [.txt], budget_cap := none, dry_run := false }
        { mAfterRun with jobs := [jobFresh] }).err =
      some capTypeError ∧
    (process_batch (fun _ => envAllOk)
        { formats := [.txt], budget_cap := none, dry_run := false }
        { mAfterRun with jobs := [jobFresh] }).calls = 0 ∧
    (process_batch (fun _ => envAllOk)
        { formats := [.txt], budget_cap := none, dry_run := false }
        { mAfterRun with jobs := [jobFresh] }).m = { mAfterRun with jobs := [jobFresh] } ∧
    (process_batch (fun _ => envAllOk)
        { formats := [.txt], budget_cap := none, dry_run := false }
        { mAfterRun with jobs := [jobFresh] }).saves = 1 ∧
    ∀ input output : String, ∀ fmts : List OutputFormat,
      (create_manifest cfgDefault input output fmts none).budget_cap =
        cfgDefault.cap_budget_usd :=
  budget_cap_none_aborts cfgDefault (fun _ => envAllOk) _ _ rfl rfl (by decide)

/-- **C5 (corrected): counterexample.** The claim says a job whose
transcription succeeded is demoted to FAILED iff *no* requested formatter
succeeds.  Concretely: with formats `[txt, srt]` requested and the txt
formatter succeeding while srt fails, the job is still demoted to FAILED
with reason format_failed even though a requested formatter succeeded. -/
theorem format_demotion_counterexample :
    envSrtFails.format_ok OutputFormat.txt = true ∧
    (process_single_job envSrtFails optsTxtSrt jobFresh).1.status = JobStatus.failed ∧
    (process_single_job envSrtFails optsTxtSrt jobFresh).1.failure_reason =
      some FailureReason.format_failed := by
  refine ⟨rfl, ?_, ?_⟩ <;> rfl

/-- **C5 (amended).** A job whose transcription stage succeeded completes
iff *every* requested output formatter succeeds; if any requested
formatter fails, the job is demoted to FAILED with failure reason
format_failed. -/
theorem format_demotion (env : JobEnv) (opts : Options) (job : Job)
    (hd : env.download_ok = true) (hc : env.convert_ok = true)
    (ht : env.transcribe_ok = true) :
    ((process_single_job env opts job).1.status = JobStatus.completed ↔
      opts.formats.all env.format_ok = true) ∧
    (opts.formats.all env.format_ok = false →
      (process_single_job env opts job).1.status = JobStatus.failed ∧
      (process_single_job env opts job).1.failure_reason =
        some FailureReason.format_failed) := by
  unfold process_single_job
  by_cases hf : format_job_outputs env opts = true
  · have hall : opts.formats.all env.format_ok = true := hf
    cases hm : env.metadata <;>
      simp [hd, hc, ht, hf, hall, handle_job_failure]
  · have hall : opts.formats.all env.format_ok = false := by
      simpa [format_job_outputs] using hf
    cases hm : env.metadata <;>
      simp [hd, hc, ht, hf, hall, handle_job_failure]

/-- Witness for `format_demotion`: all adapters succeed and the single
requested txt formatter succeeds, so the job completes. -/
theorem format_demotion_witness :
    ((process_single_job envAllOk optsTxt jobFresh).1.status = JobStatus.completed ↔
      optsTxt.formats.all envAllOk.format_ok = true) ∧
    (optsTxt.formats.all envAllOk.format_ok = false →
      (process_single_job envAllOk optsTxt jobFresh).1.status = JobStatus.failed ∧
      (process_single_job envAllOk optsTxt jobFresh).1.failure_reason =
        some FailureReason.format_failed) :=
  format_demotion envAllOk optsTxt jobFresh rfl rfl rfl

/-- **C3 (corrected): counterexample.** The claim says `actual_cost` is
non-null only if the job is COMPLETED, and that every COMPLETED job has a
non-null `actual_cost`.  Both directions fail: a job whose formatting
stage fails ends FAILED with `actual_cost` set (the cost is computed
right after transcription, before formatting), and a job whose metadata
fetch returned nothing completes with `actual_cost = None` (the fallback
copies the estimate, which was never set). -/
theorem actual_cost_counterexample :
    ((process_single_job envSrtFails optsTxtSrt jobFresh).1.status = JobStatus.failed ∧
      (process_single_job envSrtFails optsTxtSrt jobFresh).1.actual_cost ≠ none) ∧
    ((process_single_job envNoMetadata optsTxt jobFresh).1.status = JobStatus.completed ∧
      (process_single_job envNoMetadata optsTxt jobFresh).1.actual_cost = none) := by
  refine ⟨⟨rfl, by decide⟩, rfl, rfl⟩

/-- **C3 (amended).** For a pipeline pass on a job whose `actual_cost` is
unset: the resulting `actual_cost` is non-null only if the transcription
stage succeeded — the job ends COMPLETED or it ends FAILED with reason
format_failed; and when the job ends COMPLETED, its `actual_cost` is
computed from the known video duration when that duration is truthy,
falling back to the earlier estimate (itself possibly unset) otherwise. -/
theorem actual_cost_policy (env : JobEnv) (opts : Options) (job : Job)
    (h : job.actual_cost = none) :
    ((process_single_job env opts job).1.actual_cost ≠ none →
      (process_single_job env opts job).1.status = JobStatus.completed ∨
        ((process_single_job env opts job).1.status = JobStatus.failed ∧
          (process_single_job env opts job).1.failure_reason =
            some FailureReason.format_failed)) ∧
    ((process_single_job env opts job).1.status = JobStatus.completed →
      (truthy ((process_single_job env opts job).1.video_metadata.bind
          VideoMetadata.duration) = true →
        (process_single_job env opts job).1.actual_cost =
          some (calculate_actual_cost
            (((process_single_job env opts job).1.video_metadata.bind
              VideoMetadata.duration).getD 0))) ∧
      (truthy ((process_single_job env opts job).1.video_metadata.bind
          VideoMetadata.duration) = false →
        (process_single_job env opts job).1.actual_cost =
          (process_single_job env opts job).1.estimated_cost)) := by
  unfold process_single_job handle_job_failure
  cases hm : env.metadata <;> split_ifs <;> simp_all <;> split_ifs <;> simp_all

/-- Witness for `actual_cost_policy` at a fresh job with every adapter
succeeding. -/
theorem actual_cost_policy_witness :
    jobFresh.actual_cost = none ∧
    (((process_single_job envAllOk optsTxt jobFresh).1.actual_cost ≠ none →
      (process_single_job envAllOk optsTxt jobFresh).1.status = JobStatus.completed ∨
        ((process_single_job envAllOk optsTxt jobFresh).1.status = JobStatus.failed ∧
          (process_single_job envAllOk optsTxt jobFresh).1.failure_reason =
            some FailureReason.format_failed)) ∧
    ((process_single_job envAllOk optsTxt jobFresh).1.status = JobStatus.completed →
      (truthy ((process_single_job envAllOk optsTxt jobFresh).1.video_metadata.bind
          VideoMetadata.duration) = true →
        (process_single_job envAllOk optsTxt jobFresh).1.actual_cost =
          some (calculate_actual_cost
            (((process_single_job envAllOk optsTxt jobFresh).1.video_metadata.bind
              VideoMetadata.duration).getD 0))) ∧
      (truthy ((process_single_job envAllOk optsTxt jobFresh).1.video_metadata.bind
          VideoMetadata.duration) = false →
        (process_single_job envAllOk optsTxt jobFresh).1.actual_cost =
          (process_single_job envAllOk optsTxt jobFresh).1.estimated_cost))) :=
  ⟨rfl, actual_cost_policy envAllOk optsTxt jobFresh rfl⟩

theorem lastStop_concat (cur : List Word) (w : Word) :
    lastStop (cur ++ [w]) = w.stop.getD 0 := by
  simp [lastStop]

/-- Invariant lemma for the word-grouping loop: provided every remaining
word has truthy timestamps and individually spans at most `maxDur`, and
the running segment (when non-empty) already spans at most `maxDur` and
holds at most `maxWords` words, every emitted segment spans at most
`maxDur`, holds at most `maxWords` words, has as text the space-join of
its words' texts, and the emitted segments' word lists concatenate to the
running segment followed by the remaining words. -/
theorem groupLoop_spec (maxDur : ℚ) (maxWords : Option Nat)
    (hmw : ∀ n, maxWords = some n → 1 ≤ n)
    (ws : List Word) :
    ∀ (cur : List Word) (cs : ℚ),
    (∀ w ∈ ws, truthy w.start = true ∧ truthy w.stop = true ∧
      w.stop.getD 0 - w.start.getD 0 ≤ maxDur) →
    (cur ≠ [] → lastStop cur - cs ≤ maxDur) →
    (∀ n, maxWords = some n → cur.length ≤ n) →
    (∀ seg ∈ groupLoop maxDur maxWords ws cur cs,
        seg.stop - seg.start ≤ maxDur ∧
        (∀ n, maxWords = some n → seg.words.length ≤ n) ∧
        seg.text = joinSpace (seg.words.map Word.text)) ∧
    ((groupLoop maxDur maxWords ws cur cs).map Segment.words).flatten = cur ++ ws := by
  induction ws with
  | nil =>
    intro cur cs _ hcur hlen
    by_cases hc : cur = []
    · subst hc
      simp [groupLoop]
    · constructor
      · intro seg hseg
        rw [groupLoop] at hseg
        rw [if_neg (by simpa [List.isEmpty_iff] using hc)] at hseg
        rcases List.mem_singleton.mp hseg with rfl
        exact ⟨hcur hc, fun n hn => hlen n hn, rfl⟩
      · rw [groupLoop, if_neg (by simpa [List.isEmpty_iff] using hc)]
        simp [finishSeg]
  | cons w ws ih =>
    intro cur cs hws hcur hlen
    obtain ⟨hs, hp, hd⟩ := hws w (by simp)
    have hws' : ∀ w' ∈ ws, truthy w'.start = true ∧ truthy w'.stop = true ∧
        w'.stop.getD 0 - w'.start.getD 0 ≤ maxDur :=
      fun w' hw' => hws w' (by simp [hw'])
    rw [groupLoop, if_neg (by simp [hs, hp])]
    by_cases hc : cur = []
    · subst hc
      rw [if_pos (by simp)]
      have hnew : [w] ≠ [] → lastStop [w] - w.start.getD 0 ≤ maxDur := by
        intro _
        simpa [lastStop] using hd
      have hlen1 : ∀ n, maxWords = some n → ([w] : List Word).length ≤ n := by
        intro n hn
        simpa using hmw n hn
      exact (ih [w] (w.start.getD 0) hws' hnew hlen1).imp id (by simp)
    · rw [if_neg (by simpa [List.isEmpty_iff] using hc)]
      by_cases hb : breakSegment maxDur maxWords (w.stop.getD 0 - cs) cur.length = true
      · rw [if_pos hb]
        have hnew : [w] ≠ [] → lastStop [w] - w.start.getD 0 ≤ maxDur := by
          intro _
          simpa [lastStop] using hd
        have hlen1 : ∀ n, maxWords = some n → ([w] : List Word).length ≤ n := by
          intro n hn
          simpa using hmw n hn
        obtain ⟨ihseg, ihjoin⟩ := ih [w] (w.start.getD 0) hws' hnew hlen1
        constructor
        · intro seg hseg
          rcases List.mem_cons.mp hseg with rfl | hseg
          · exact ⟨hcur hc, fun n hn => hlen n hn, rfl⟩
          · exact ihseg seg hseg
        · simp [finishSeg, ihjoin]
      · rw [if_neg hb]
        have hb' := hb
        unfold breakSegment at hb'
        rw [Bool.or_eq_true] at hb'
        push_neg at hb'
        have hdur : w.stop.getD 0 - cs ≤ maxDur :=
          le_of_not_lt (by simpa using hb'.1)
        have hnext : cur ++ [w] ≠ [] → lastStop (cur ++ [w]) - cs ≤ maxDur := by
          intro _
          rw [lastStop_concat]
          exact hdur
        have hlen' : ∀ n, maxWords = some n → (cur ++ [w]).length ≤ n := by
          intro n hn
          have : ¬ (n ≤ cur.length) := by
            have h2 := hb'.2
            rw [hn] at h2
            simpa using h2
          simp only [List.length_append, List.length_cons, List.length_nil]
          omega
        obtain ⟨ihseg, ihjoin⟩ := ih (cur ++ [w]) cs hws' hnext hlen'
        refine ⟨ihseg, ?_⟩
        rw [ihjoin]
        simp

/-- **C6 (corrected): counterexample.** The claim fails in two ways on
inputs where every word has explicit start and end timestamps.  A word
whose start timestamp is 0 is dropped by the falsy test
`if not word.get('start')`, so it appears in no segment (the grouping
returns no segments at all); and a single word spanning more than 8
seconds yields a segment spanning more than the 8-second maximum. -/
theorem caption_grouping_counterexample :
    wordZeroStart.start ≠ none ∧ wordZeroStart.stop ≠ none ∧
    srt_group_words_into_segments [wordZeroStart] = [] ∧
    vtt_group_words_into_segments [wordZeroStart] = [] ∧
    wordLong.start ≠ none ∧ wordLong.stop ≠ none ∧
    srt_group_words_into_segments [wordLong] =
      [⟨1, 20, "b", [wordLong]⟩] ∧
    ¬ ((20 : ℚ) - 1 ≤ 8) := by
  refine ⟨by simp [wordZeroStart], by simp [wordZeroStart], by decide, by decide,
    by simp [wordLong], by simp [wordLong], by decide, by norm_num⟩

/-- **C6 (amended).** For every word sequence in which every word has
truthy (present and non-zero) start and end timestamps and no single word
spans more than the 8-second maximum duration, the SRT grouping produces
segments spanning at most 8 seconds with at most 10 words each, and the
VTT grouping produces segments spanning at most 8 seconds; in both, each
segment's text is the space-join of its words' texts and the segments'
word lists are an order-preserving partition of the input words — every
input word appears in exactly one segment, in original order. -/
theorem caption_grouping (ws : List Word)
    (hws : ∀ w ∈ ws, truthy w.start = true ∧ truthy w.stop = true ∧
      w.stop.getD 0 - w.start.getD 0 ≤ 8) :
    (∀ seg ∈ srt_group_words_into_segments ws,
        seg.stop - seg.start ≤ 8 ∧ seg.words.length ≤ 10 ∧
        seg.text = joinSpace (seg.words.map Word.text)) ∧
    ((srt_group_words_into_segments ws).map Segment.words).flatten = ws ∧
    (∀ seg ∈ vtt_group_words_into_segments ws,
        seg.stop - seg.start ≤ 8 ∧
        seg.text = joinSpace (seg.words.map Word.text)) ∧
    ((vtt_group_words_into_segments ws).map Segment.words).flatten = ws := by
  have hsrt := groupLoop_spec 8 (some 10)
    (fun n hn => by injection hn with h; omega) ws [] 0 hws
    (fun h => absurd rfl h) (fun n _ => Nat.zero_le n)
  have hvtt := groupLoop_spec 8 none
    (fun n hn => by cases hn) ws [] 0 hws
    (fun h => absurd rfl h) (fun n _ => Nat.zero_le n)
  refine ⟨?_, by simpa using hsrt.2, ?_, by simpa using hvtt.2⟩
  · intro seg hseg
    obtain ⟨h1, h2, h3⟩ := hsrt.1 seg hseg
    exact ⟨h1, h2 10 rfl, h3⟩
  · intro seg hseg
    obtain ⟨h1, _, h3⟩ := hvtt.1 seg hseg
    exact ⟨h1, h3⟩

/-- Witness for `caption_grouping` at a concrete two-word input. -/
theorem caption_grouping_witness :
    (∀ seg ∈ srt_group_words_into_segments wsPair,
        seg.stop - seg.start ≤ 8 ∧ seg.words.length ≤ 10 ∧
        seg.text = joinSpace (seg.words.map Word.text)) ∧
    ((srt_group_words_into_segments wsPair).map Segment.words).flatten = wsPair ∧
    (∀ seg ∈ vtt_group_words_into_segments wsPair,
        seg.stop - seg.start ≤ 8 ∧
        seg.text = joinSpace (seg.words.map Word.text)) ∧
    ((vtt_group_words_into_segments wsPair).map Segment.words).flatten = wsPair :=
  caption_grouping wsPair (by
    simp only [wsPair, List.forall_mem_cons, List.forall_mem_nil]
    norm_num [truthy])

theorem batchStep_stopped {env : Nat → JobEnv} {opts : Options} {s : BatchState}
    (h : s.stopped = true) (i : Nat) : batchStep env opts s i = s := by
  unfold batchStep
  simp [h]

theorem runJobs_stopped {env : Nat → JobEnv} {opts : Options} {s : BatchState}
    (h : s.stopped = true) (idxs : List Nat) : runJobs env opts s idxs = s := by
  induction idxs with
  | nil => rfl
  | cons i rest ih =>
      unfold runJobs at ih ⊢
      rw [List.foldl_cons, batchStep_stopped h, ih]

theorem markFrom_getElem? (i k : Nat) (js : List Job) :
    (markFrom i js)[k]? = if k < i then js[k]? else js[k]?.map skipPending := by
  induction js generalizing i k with
  | nil => simp [markFrom]
  | cons j js ih =>
    cases i with
    | zero =>
      cases k with
      | zero => simp [markFrom]
      | succ k => simpa [markFrom] using ih 0 k
    | succ n =>
      cases k with
      | zero => simp [markFrom]
      | succ k => simpa [markFrom, Nat.succ_lt_succ_iff] using ih n k

/-- **C1.** Budget cutoff: at any point of the batch loop (state not yet
broken, no pending exception) where the accumulated `total_actual_cost`
has reached or exceeded the budget cap before the job at position `i` is
started, the run performs `_mark_remaining_jobs_skipped` and breaks: the
current and every remaining PENDING job becomes SKIPPED with failure
reason budget_exceeded, every job that is not PENDING — in particular
every COMPLETED or FAILED one — is left unchanged, and no further adapter
(download/convert/transcribe) call and no further save is made for any of
the remaining jobs. -/
theorem budget_cutoff_skips_remaining (env : Nat → JobEnv) (opts : Options)
    (s : BatchState) (i : Nat) (rest : List Nat) (B : ℚ)
    (herr : s.err = none) (hstop : s.stopped = false)
    (hcap : opts.budget_cap = some B) (hge : B ≤ s.m.total_actual_cost) :
    runJobs env opts s (i :: rest) =
      { s with m := mark_remaining_jobs_skipped s.m i, stopped := true } ∧
    (runJobs env opts s (i :: rest)).calls = s.calls ∧
    (runJobs env opts s (i :: rest)).saves = s.saves ∧
    (∀ k j, s.m.jobs[k]? = some j → (k < i ∨ j.status ≠ .pending) →
      (runJobs env opts s (i :: rest)).m.jobs[k]? = some j) ∧
    (∀ k j, s.m.jobs[k]? = some j → i ≤ k → j.status = .pending →
      (runJobs env opts s (i :: rest)).m.jobs[k]? = some
        { j with
            status := .skipped
            failure_reason := some FailureReason.budget_exceeded
            error_message := some "Skipped due to budget cap" }) := by
  have hstep : batchStep env opts s i =
      { s with m := mark_remaining_jobs_skipped s.m i, stopped := true } := by
    unfold batchStep
    rw [herr]
    simp [hstop, capCheck, hcap, hge]
  have hrun : runJobs env opts s (i :: rest) =
      { s with m := mark_remaining_jobs_skipped s.m i, stopped := true } := by
    rw [runJobs, List.foldl_cons, hstep]
    exact runJobs_stopped rfl rest
  refine ⟨hrun, by rw [hrun], by rw [hrun], ?_, ?_⟩
  · intro k j hkj hcond
    rw [hrun]
    show (markFrom i s.m.jobs)[k]? = some j
    rw [markFrom_getElem?]
    rcases hcond with hk | hst
    · rw [if_pos hk, hkj]
    · by_cases hk : k < i
      · rw [if_pos hk, hkj]
      · rw [if_neg hk, hkj, Option.map_some']
        simp [skipPending, hst]
  · intro k j hkj hik hp
    rw [hrun]
    show (markFrom i s.m.jobs)[k]? = some _
    rw [markFrom_getElem?, if_neg (by omega), hkj, Option.map_some']
    simp [skipPending, hp]

/-- Witness for `budget_cutoff_skips_remaining`: a loop state whose
accumulated cost (6) already exceeds the 5-dollar cap before position 0;
the failed job at position 0 stays untouched and the pending job at
position 1 becomes SKIPPED. -/
theorem budget_cutoff_skips_remaining_witness :
    runJobs (fun _ => envAllOk) optsTxt ⟨mOverCap, 0, 1, false, none⟩ [0, 1] =
      { m := mark_remaining_jobs_skipped mOverCap 0, calls := 0, saves := 1,
        stopped := true, err := none } ∧
    (runJobs (fun _ => envAllOk) optsTxt ⟨mOverCap, 0, 1, false, none⟩ [0, 1]).calls = 0 ∧
    (runJobs (fun _ => envAllOk) optsTxt ⟨mOverCap, 0, 1, false, none⟩ [0, 1]).saves = 1 ∧
    (∀ k j, mOverCap.jobs[k]? = some j → (k < 0 ∨ j.status ≠ .pending) →
      (runJobs (fun _ => envAllOk) optsTxt ⟨mOverCap, 0, 1, false, none⟩ [0, 1]).m.jobs[k]? =
        some j) ∧
    (∀ k j, mOverCap.jobs[k]? = some j → 0 ≤ k → j.status = .pending →
      (runJobs (fun _ => envAllOk) optsTxt ⟨mOverCap, 0, 1, false, none⟩ [0, 1]).m.jobs[k]? =
        some { j with
                 status := .skipped
                 failure_reason := some FailureReason.budget_exceeded
                 error_message := some "Skipped due to budget cap" }) :=
  budget_cutoff_skips_remaining (fun _ => envAllOk) optsTxt
    ⟨mOverCap, 0, 1, false, none⟩ 0 [1] 5 rfl rfl rfl (by norm_num [mOverCap, mAfterRun])

/-- **C8 (corrected): counterexample.** The claim says the manifest's
aggregates are recomputed and the manifest persisted after *every* job,
success or failure.  Concretely: a batch step whose job fails at the
download stage leaves the save count untouched and the stored aggregates
stale — the job at position 0 is FAILED but `failed_jobs` still reads 0
and no save has happened. -/
theorem persist_after_job_counterexample :
    ((batchStep (fun _ => envDownloadFails) optsTxt
        ⟨mTwoPending, 0, 1, false, none⟩ 0).m.jobs[0]?.map Job.status) =
      some JobStatus.failed ∧
    (batchStep (fun _ => envDownloadFails) optsTxt
        ⟨mTwoPending, 0, 1, false, none⟩ 0).saves = 1 ∧
    (batchStep (fun _ => envDownloadFails) optsTxt
        ⟨mTwoPending, 0, 1, false, none⟩ 0).m.failed_jobs = 0 := by
  refine ⟨rfl, rfl, rfl⟩

/-- **C8 (amended).** In the batch loop, after a job's pipeline pass
returns, the manifest's aggregates are recomputed and the manifest
persisted exactly when that pass ended COMPLETED: the completed case
stores the job, runs `update_stats` and saves; in every other case the
job is stored but no save happens and the stored aggregate fields keep
their previous (stale) values until a later success or the end-of-batch
save. -/
theorem persist_after_job (env : Nat → JobEnv) (opts : Options) (s : BatchState)
    (i : Nat) (j : Job) (B : ℚ)
    (herr : s.err = none) (hstop : s.stopped = false)
    (hcap : opts.budget_cap = some B) (hlt : s.m.total_actual_cost < B)
    (hj : s.m.jobs[i]? = some j) :
    ((process_single_job (env i) opts j).1.status = .completed →
      batchStep env opts s i =
        { s with
            m := Manifest.update_stats
              { s.m with jobs := s.m.jobs.set i (process_single_job (env i) opts j).1 }
            calls := s.calls + (process_single_job (env i) opts j).2
            saves := s.saves + 1 }) ∧
    ((process_single_job (env i) opts j).1.status ≠ .completed →
      batchStep env opts s i =
        { s with
            m := { s.m with jobs := s.m.jobs.set i (process_single_job (env i) opts j).1 }
            calls := s.calls + (process_single_job (env i) opts j).2 } ∧
      (batchStep env opts s i).saves = s.saves ∧
      (batchStep env opts s i).m.total_actual_cost = s.m.total_actual_cost ∧
      (batchStep env opts s i).m.failed_jobs = s.m.failed_jobs) := by
  have hcheck : capCheck s.m.total_actual_cost opts.budget_cap = .ok false := by
    rw [hcap]
    simp [capCheck, not_le.mpr hlt]
  have hstep : batchStep env opts s i = runJobCore (env i) opts s i j := by
    unfold batchStep
    rw [herr]
    simp only [Option.isSome_none, Bool.false_eq_true, hstop, or_self, if_false]
    rw [hcheck, hj]
  constructor
  · intro hdone
    rw [hstep]
    unfold runJobCore
    rw [if_pos hdone]
  · intro hfail
    rw [hstep]
    unfold runJobCore
    rw [if_neg hfail]
    exact ⟨rfl, rfl, rfl, rfl⟩

/-- Witness for `persist_after_job`: a fresh two-job manifest under a
5-dollar cap with every adapter succeeding at position 0. -/
theorem persist_after_job_witness :
    ((process_single_job ((fun _ => envAllOk) 0) optsTxt jobFresh).1.status = .completed →
      batchStep (fun _ => envAllOk) optsTxt ⟨mTwoPending, 0, 1, false, none⟩ 0 =
        { m := Manifest.update_stats
            { mTwoPending with
              jobs := mTwoPending.jobs.set 0
                (process_single_job ((fun _ => envAllOk) 0) optsTxt jobFresh).1 }
          calls := 0 + (process_single_job ((fun _ => envAllOk) 0) optsTxt jobFresh).2
          saves := 1 + 1
          stopped := false
          err := none }) ∧
    ((process_single_job ((fun _ => envAllOk) 0) optsTxt jobFresh).1.status ≠ .completed →
      batchStep (fun _ => envAllOk) optsTxt ⟨mTwoPending, 0, 1, false, none⟩ 0 =
        { m := { mTwoPending with
                 jobs := mTwoPending.jobs.set 0
                   (process_single_job ((fun _ => envAllOk) 0) optsTxt jobFresh).1 }
          calls := 0 + (process_single_job ((fun _ => envAllOk) 0) optsTxt jobFresh).2
          saves := 1
          stopped := false
          err := none } ∧
      (batchStep (fun _ => envAllOk) optsTxt ⟨mTwoPending, 0, 1, false, none⟩ 0).saves = 1 ∧
      (batchStep (fun _ => envAllOk) optsTxt
          ⟨mTwoPending, 0, 1, false, none⟩ 0).m.total_actual_cost =
        mTwoPending.total_actual_cost ∧
      (batchStep (fun _ => envAllOk) optsTxt
          ⟨mTwoPending, 0, 1, false, none⟩ 0).m.failed_jobs = mTwoPending.failed_jobs) :=
  persist_after_job (fun _ => envAllOk) optsTxt ⟨mTwoPending, 0, 1, false, none⟩ 0
    jobFresh 5 rfl rfl rfl (by norm_num [mTwoPending, mAfterRun]) rfl

theorem process_single_job_retry_count (env : JobEnv) (opts : Options) (job : Job) :
    (process_single_job env opts job).1.retry_count = job.retry_count := by
  unfold process_single_job handle_job_failure
  cases env.metadata <;> split_ifs <;> simp_all <;> split_ifs <;> simp_all

/-- **C4 (corrected): counterexample.** The claim says every selected job
has `retry_count` incremented by exactly 1 and its failure data cleared
before re-execution.  Concretely: in a manifest whose accumulated actual
cost (5) already reaches the retry budget (5), the failed job is selected
by `get_retryable_jobs` but the retry loop breaks on the budget check
before touching it — it remains FAILED with `retry_count` still 0 and its
failure reason in place. -/
theorem retry_policy_counterexample :
    jobFailed ∈ mAfterRun.get_retryable_jobs cfgDefault ∧
    (retry_failed_jobs cfgDefault (fun _ => envAllOk) mAfterRun (some 5)).m.jobs[1]? =
      some jobFailed ∧
    jobFailed.retry_count = 0 ∧
    jobFailed.status = .failed ∧
    jobFailed.failure_reason = some .download_failed := by
  refine ⟨by decide, rfl, rfl, rfl, rfl⟩

/-- **C4 (amended).** `retry_failed_jobs` selects exactly the jobs with
status FAILED and `retry_count` strictly below the configured limit — in
particular never one at the limit.  A selected job whose turn comes while
the accumulated `total_actual_cost` is still below the budget has
`retry_count` incremented by exactly 1 and its failure reason, error
message and status reset (to PENDING) before its pipeline is re-run, and
other positions are left untouched by that step; but once the accumulated
cost has reached the budget, the loop breaks and the remaining selected
jobs are left entirely untouched. -/
theorem retry_policy :
    (∀ cfg : Config, ∀ m : Manifest, ∀ j : Job,
        j ∈ m.get_retryable_jobs cfg ↔
          (j ∈ m.jobs ∧ j.status = .failed ∧ j.retry_count < cfg.retry_limit)) ∧
    (∀ env : Nat → JobEnv, ∀ opts : Options, ∀ budget : ℚ, ∀ s : BatchState,
      ∀ i : Nat, ∀ j : Job,
        s.stopped = false → s.m.total_actual_cost < budget →
        s.m.jobs[i]? = some j →
        resetForRetry j =
          { j with
              retry_count := j.retry_count + 1
              status := .pending
              error_message := none
              failure_reason := none } ∧
        (retryStep env opts budget s i).m.jobs[i]? =
          some (process_single_job (env i) opts (resetForRetry j)).1 ∧
        ((retryStep env opts budget s i).m.jobs[i]?.map Job.retry_count) =
          some (j.retry_count + 1) ∧
        (∀ k, k ≠ i → (retryStep env opts budget s i).m.jobs[k]? = s.m.jobs[k]?)) ∧
    (∀ env : Nat → JobEnv, ∀ opts : Options, ∀ budget : ℚ, ∀ s : BatchState, ∀ i : Nat,
        s.stopped = false → budget ≤ s.m.total_actual_cost →
        retryStep env opts budget s i = { s with stopped := true }) := by
  refine ⟨?_, ?_, ?_⟩
  · intro cfg m j
    unfold Manifest.get_retryable_jobs
    rw [List.mem_filter]
    simp
  · intro env opts budget s i j hstop hlt hj
    have hi : i < s.m.jobs.length := (List.getElem?_eq_some.mp hj).1
    have hstep : retryStep env opts budget s i =
        runJobCore (env i) opts s i (resetForRetry j) := by
      unfold retryStep
      rw [if_neg (by simp [hstop]), if_neg (not_le.mpr hlt), hj]
    have hjobs : (retryStep env opts budget s i).m.jobs =
        s.m.jobs.set i (process_single_job (env i) opts (resetForRetry j)).1 := by
      rw [hstep]
      unfold runJobCore
      by_cases hc :
          (process_single_job (env i) opts (resetForRetry j)).1.status = JobStatus.completed
      · simp [hc, Manifest.update_stats]
      · simp [hc]
    refine ⟨rfl, ?_, ?_, ?_⟩
    · rw [hjobs]
      exact List.getElem?_set_eq_of_lt _ (by simpa using hi)
    · rw [hjobs, List.getElem?_set_eq_of_lt _ (by simpa using hi)]
      rw [Option.map_some', process_single_job_retry_count]
      rfl
    · intro k hk
      rw [hjobs]
      exact List.getElem?_set_ne (fun h => hk h.symm)
  · intro env opts budget s i hstop hle
    unfold retryStep
    rw [if_neg (by simp [hstop]), if_pos hle]

theorem mem_of_getElem_eq {α : Type} {l : List α} {k : Nat} {a : α}
    (h : l[k]? = some a) : a ∈ l := by
  obtain ⟨hk, rfl⟩ := List.getElem?_eq_some.mp h
  exact List.getElem_mem hk

theorem process_single_job_outcome (env : JobEnv) (opts : Options) (job : Job) :
    ((process_single_job env opts job).1.status = .failed ∧
      (process_single_job env opts job).1.failure_reason ≠ none) ∨
    ((process_single_job env opts job).1.status = .completed ∧
      (process_single_job env opts job).1.failure_reason = job.failure_reason) := by
  unfold process_single_job handle_job_failure
  cases env.metadata <;> split_ifs <;> simp_all <;> split_ifs <;> simp_all

theorem reasonInvariant_process (env : JobEnv) (opts : Options) (job : Job)
    (h : job.failure_reason = none) :
    reasonInvariant (process_single_job env opts job).1 := by
  rcases process_single_job_outcome env opts job with ⟨h1, h2⟩ | ⟨h1, h2⟩
  · unfold reasonInvariant
    rw [h1]
    simp [h2]
  · unfold reasonInvariant
    rw [h1, h2, h]
    simp

theorem reasonInvariant_skipPending {j : Job} (h : reasonInvariant j) :
    reasonInvariant (skipPending j) := by
  unfold skipPending
  split_ifs with hp
  · unfold reasonInvariant
    simp
  · exact h

theorem markFrom_forall {p : Job → Prop} (hp : ∀ j, p j → p (skipPending j)) :
    ∀ (i : Nat) (js : List Job), (∀ j ∈ js, p j) → ∀ j ∈ markFrom i js, p j := by
  intro i js
  induction js generalizing i with
  | nil => simp [markFrom]
  | cons j js ih =>
    intro h j' hj'
    cases i with
    | zero =>
      rcases List.mem_cons.mp hj' with rfl | hj'
      · exact hp j (h j (by simp))
      · exact ih 0 (fun x hx => h x (by simp [hx])) j' hj'
    | succ n =>
      rcases List.mem_cons.mp hj' with rfl | hj'
      · exact h j' (by simp)
      · exact ih n (fun x hx => h x (by simp [hx])) j' hj'

theorem runJobCore_fields (env : JobEnv) (opts : Options) (s : BatchState)
    (i : Nat) (j : Job) :
    (runJobCore env opts s i j).m.jobs =
      s.m.jobs.set i (process_single_job env opts j).1 ∧
    (runJobCore env opts s i j).stopped = s.stopped ∧
    (runJobCore env opts s i j).err = s.err := by
  unfold runJobCore
  by_cases hc : (process_single_job env opts j).1.status = JobStatus.completed
  · simp [hc, Manifest.update_stats]
  · simp [hc]

theorem runJobs_reasonInvariant (env : Nat → JobEnv) (opts : Options) :
    ∀ (idxs : List Nat) (s : BatchState),
    (∀ j ∈ s.m.jobs, reasonInvariant j) →
    (∀ k ∈ idxs, ∀ j, s.m.jobs[k]? = some j → j.failure_reason = none) →
    idxs.Nodup →
    ∀ j ∈ (runJobs env opts s idxs).m.jobs, reasonInvariant j := by
  intro idxs
  induction idxs with
  | nil => exact fun s hP _ _ => hP
  | cons i rest ih =>
    intro s hP hclear hnd
    have hndr := (List.nodup_cons.mp hnd).2
    have hni := (List.nodup_cons.mp hnd).1
    have hclearr : ∀ k ∈ rest, ∀ j, s.m.jobs[k]? = some j → j.failure_reason = none :=
      fun k hk => hclear k (List.mem_cons_of_mem i hk)
    by_cases he : s.err.isSome = true ∨ s.stopped = true
    · have hstep : batchStep env opts s i = s := by
        unfold batchStep
        rw [if_pos he]
      rw [runJobs, List.foldl_cons, hstep]
      exact ih s hP hclearr hndr
    · cases hcap : opts.budget_cap with
      | none =>
        have hstep : batchStep env opts s i =
            { s with err := some capTypeError } := by
          unfold batchStep
          rw [if_neg he]
          simp [capCheck, hcap]
        rw [runJobs, List.foldl_cons, hstep]
        show ∀ j ∈ (runJobs env opts { s with err := some capTypeError } rest).m.jobs,
          reasonInvariant j
        rw [runJobs_err (by rfl)]
        exact hP
      | some B =>
        by_cases hge : B ≤ s.m.total_actual_cost
        · have hstep : batchStep env opts s i =
              { s with m := mark_remaining_jobs_skipped s.m i, stopped := true } := by
            unfold batchStep
            rw [if_neg he]
            simp [capCheck, hcap, hge]
          rw [runJobs, List.foldl_cons, hstep]
          show ∀ j ∈ (runJobs env opts
              { s with m := mark_remaining_jobs_skipped s.m i, stopped := true }
              rest).m.jobs,
            reasonInvariant j
          rw [runJobs_stopped rfl]
          exact @markFrom_forall reasonInvariant
            (fun _ h => reasonInvariant_skipPending h) i s.m.jobs hP
        · cases hj : s.m.jobs[i]? with
          | none =>
            have hstep : batchStep env opts s i = s := by
              unfold batchStep
              rw [if_neg he]
              simp [capCheck, hcap, hge, hj]
            rw [runJobs, List.foldl_cons, hstep]
            exact ih s hP hclearr hndr
          | some j0 =>
            have hstep : batchStep env opts s i = runJobCore (env i) opts s i j0 := by
              unfold batchStep
              rw [if_neg he]
              simp [capCheck, hcap, hge, hj]
            rw [runJobs, List.foldl_cons, hstep]
            obtain ⟨hjobs, _, _⟩ := runJobCore_fields (env i) opts s i j0
            apply ih
            · rw [hjobs]
              intro j hjmem
              rcases List.mem_or_eq_of_mem_set hjmem with hmem | rfl
              · exact hP j hmem
              · exact reasonInvariant_process _ _ _ (hclear i (by simp) j0 hj)
            · intro k hk j hjk
              rw [hjobs] at hjk
              have hki : k ≠ i := fun h => hni (h ▸ hk)
              rw [List.getElem?_set_ne (fun h => hki h.symm)] at hjk
              exact hclearr k hk j hjk
            · exact hndr

theorem populateFrom_fields (mid : String) :
    ∀ (i : Nat) (urls : List String), ∀ j ∈ populateFrom mid i urls,
      j.failure_reason = none ∧ j.status = .pending := by
  intro i urls
  induction urls generalizing i with
  | nil => simp [populateFrom]
  | cons u us ih =>
    intro j hj
    rcases List.mem_cons.mp hj with rfl | hj
    · exact ⟨rfl, rfl⟩
    · exact ih (i + 1) j hj

theorem dryRunJobs_reasonInvariant (env : Nat → JobEnv) :
    ∀ (i : Nat) (js : List Job),
    (∀ j ∈ js, j.failure_reason = none ∧ j.status = .pending) →
    ∀ j ∈ dryRunJobs env i js, reasonInvariant j := by
  intro i js
  induction js generalizing i with
  | nil => simp [dryRunJobs]
  | cons j0 js ih =>
    intro h j' hj'
    rcases List.mem_cons.mp hj' with rfl | hj'
    · obtain ⟨hr, hs⟩ := h j0 (by simp)
      unfold reasonInvariant dryRunJob
      cases (env i).metadata <;> simp [hr, hs]
    · exact ih (i + 1) (fun x hx => h x (by simp [hx])) j' hj'

theorem retryStep_reasonInvariant (env : Nat → JobEnv) (opts : Options)
    (budget : ℚ) (s : BatchState) (i : Nat)
    (hP : ∀ j ∈ s.m.jobs, reasonInvariant j) :
    ∀ j ∈ (retryStep env opts budget s i).m.jobs, reasonInvariant j := by
  unfold retryStep
  split_ifs with h1 h2
  · exact hP
  · exact hP
  · cases hj : s.m.jobs[i]? with
    | none => exact hP
    | some j0 =>
      show ∀ j ∈ (runJobCore (env i) opts s i (resetForRetry j0)).m.jobs, reasonInvariant j
      obtain ⟨hjobs, _, _⟩ := runJobCore_fields (env i) opts s i (resetForRetry j0)
      rw [hjobs]
      intro j hjmem
      rcases List.mem_or_eq_of_mem_set hjmem with hmem | rfl
      · exact hP j hmem
      · exact reasonInvariant_process _ _ _ rfl

theorem retryFold_reasonInvariant (env : Nat → JobEnv) (opts : Options) (budget : ℚ) :
    ∀ (idxs : List Nat) (s : BatchState),
    (∀ j ∈ s.m.jobs, reasonInvariant j) →
    ∀ j ∈ (idxs.foldl (retryStep env opts budget) s).m.jobs, reasonInvariant j := by
  intro idxs
  induction idxs with
  | nil => exact fun s h => h
  | cons i rest ih =>
    intro s h
    rw [List.foldl_cons]
    exact ih _ (retryStep_reasonInvariant env opts budget s i h)

/-- **C2 (corrected): counterexample.** The claim says no job in a
non-FAILED status ever carries a non-null `failure_reason`.  Concretely:
running a batch whose accumulated cost already exceeds the cap leaves the
pending job at position 1 in status SKIPPED — not FAILED — while carrying
`failure_reason = budget_exceeded`. -/
theorem failure_reason_iff_failed_counterexample :
    ((process_batch (fun _ => envAllOk) optsTxt mOverCap).m.jobs[1]?.map Job.status) =
      some JobStatus.skipped ∧
    ((process_batch (fun _ => envAllOk) optsTxt mOverCap).m.jobs[1]?.map
        Job.failure_reason) =
      some (some FailureReason.budget_exceeded) := by
  exact ⟨rfl, rfl⟩

/-- **C2 (amended).** Through the orchestrator's operations, every
reachable job satisfies: `failure_reason` is non-null iff the job's
status is FAILED *or* SKIPPED (a budget-skipped job also carries the
reason budget_exceeded).  This invariant holds for every job of the
manifest produced by a batch run started from a freshly populated
manifest, and is preserved by `retry_failed_jobs` from any manifest all
of whose jobs satisfy it. -/
theorem failure_reason_iff_failed_or_skipped :
    (∀ cfg : Config, ∀ env : Nat → JobEnv, ∀ opts : Options,
      ∀ input output : String, ∀ fmts : List OutputFormat, ∀ bc : Option ℚ,
      ∀ urls : List String,
      ∀ j ∈ (process_batch env opts
          (populate_jobs (create_manifest cfg input output fmts bc) urls)).m.jobs,
        reasonInvariant j) ∧
    (∀ cfg : Config, ∀ env : Nat → JobEnv, ∀ m : Manifest, ∀ bc : Option ℚ,
      (∀ j ∈ m.jobs, reasonInvariant j) →
      ∀ j ∈ (retry_failed_jobs cfg env m bc).m.jobs, reasonInvariant j) := by
  constructor
  · intro cfg env opts input output fmts bc urls
    set m0 := populate_jobs (create_manifest cfg input output fmts bc) urls with hm0
    have hjobs0 : m0.jobs = populateFrom (create_manifest cfg input output fmts bc).id 1 urls := by
      rw [hm0]
      unfold populate_jobs Manifest.update_stats
      simp [create_manifest]
    have hfields : ∀ j ∈ m0.jobs, j.failure_reason = none ∧ j.status = .pending := by
      rw [hjobs0]
      exact populateFrom_fields _ 1 urls
    have hP0 : ∀ j ∈ m0.jobs, reasonInvariant j := by
      intro j hj
      obtain ⟨hr, hs⟩ := hfields j hj
      unfold reasonInvariant
      rw [hr, hs]
      simp
    unfold process_batch
    by_cases hdry : opts.dry_run = true
    · rw [if_pos hdry]
      show ∀ j ∈ (perform_dry_run env m0).jobs, reasonInvariant j
      unfold perform_dry_run Manifest.update_stats
      exact dryRunJobs_reasonInvariant env 0 m0.jobs hfields
    · rw [if_neg hdry]
      have hloop := runJobs_reasonInvariant env opts (List.range m0.jobs.length)
        ⟨m0, 0, 1, false, none⟩ hP0
        (fun k _ j hj => (hfields j (mem_of_getElem_eq hj)).1)
        (List.nodup_range _)
      by_cases herr :
          (runJobs env opts ⟨m0, 0, 1, false, none⟩ (List.range m0.jobs.length)).err.isSome
      · rw [if_pos herr]
        exact hloop
      · rw [if_neg herr]
        show ∀ j ∈ (Manifest.update_stats _).jobs, reasonInvariant j
        unfold Manifest.update_stats
        exact hloop
  · intro cfg env m bc hP
    unfold retry_failed_jobs
    by_cases hidx : retryable_positions cfg m = []
    · rw [if_pos hidx]
      exact hP
    · rw [if_neg hidx]
      show ∀ j ∈ (Manifest.update_stats _).jobs, reasonInvariant j
      unfold Manifest.update_stats
      exact retryFold_reasonInvariant env _ _ (retryable_positions cfg m)
        ⟨m, 0, 0, false, none⟩ hP

end SoloTranscribe
